import Mathlib

/-!
Shallow embedding of `src/run_analysis.py` (VMD_Cost_Savings).

The script has two phases:
* `generate_synthetic_data` builds three record sets (patients, medication
  adherence, hospital admissions) from the module constants and the ambient
  pseudo-random sources (`random.randint`, `random.random`, `random.uniform`,
  `np.random.poisson`, `fake.date_between`).
* `run_analysis_and_export` loads the sets into SQLite, runs two grouped
  queries, derives three scalar metrics and writes a JSON document.

Modelling choices:
* Python floats are modelled by ℚ; `round(x, n)` is modelled by round-half-to-even
  at n decimal digits (Python's rounding mode).
* The pseudo-random primitives are modelled as explicit oracle functions
  (a `RandomSource`); the guarantees of the library primitives (output
  ranges) become the `RandomSource.Valid` hypothesis.
* The group labels are the strings "Group 1" and "Group 2" in the source;
  they are modelled by the two-element type `Cohort`, whose enumeration order
  `g1, g2` is the lexicographic order of the two strings, which is what the
  SQL `ORDER BY assigned_group` sorts by.
* The SQL queries are modelled as list pipelines with the same multiset
  semantics: `JOIN` is an inner join, `LEFT JOIN` keeps unmatched patients,
  `GROUP BY g ORDER BY g` yields one row per label present, in label order.
* Python exceptions (IndexError on a missing cohort row, ZeroDivisionError)
  are modelled by `Except String`; the JSON file is written only when the
  analysis returns `Except.ok`.
* The module constants (`TOTAL_PATIENTS`, `GROUP_1_RATIO`, ...) become the
  fields of a `Config` record; `defaultConfig` holds the exact values of the
  source constants.
-/

/-- Cohort label: `g1` models the string "Group 1", `g2` models "Group 2".
The enumeration order g1 < g2 matches the lexicographic order of the strings. -/
inductive Cohort where
  | g1 : Cohort
  | g2 : Cohort
deriving DecidableEq, Repr

/-- One row of the `patients` table: `{'patient_id': i, 'assigned_group': group, 'age': age}`. -/
structure Patient where
  patient_id : ℕ
  assigned_group : Cohort
  age : ℕ
deriving DecidableEq, Repr

/-- One row of the `medication_adherence` table: `{'patient_id': ..., 'pdc_score': ...}`. -/
structure AdherenceRecord where
  patient_id : ℕ
  pdc_score : ℚ
deriving DecidableEq, Repr

/-- One row of the `hospital_admissions` table:
`{'admission_id': ..., 'patient_id': ..., 'admission_date': ...}`.
The date is the day offset relative to "today" (so the trailing one-year
window of `fake.date_between(start_date='-1y', end_date='today')` is `[-365, 0]`). -/
structure AdmissionEvent where
  admission_id : ℕ
  patient_id : ℕ
  admission_date : ℤ
deriving DecidableEq, Repr

/-- The module-level configuration constants of `run_analysis.py` (lines 15-22),
turned into an explicit record.  `cohort_ratio` is the constant named
GROUP_1_RATIO in the source. -/
structure Config where
  total_patients : ℕ
  cohort_ratio : ℚ
  adherence_threshold : ℚ
  group1_adherence_rate : ℚ
  group2_adherence_rate : ℚ
  adherent_admission_rate : ℚ
  non_adherent_admission_rate : ℚ
  cost_per_admission : ℚ
deriving DecidableEq, Repr

/-- The exact constant values of the source: TOTAL_PATIENTS = 17000,
GROUP_1_RATIO = 1/2.05 = 20/41, ADHERENCE_THRESHOLD = 0.8,
GROUP_1_ADHERENCE_RATE = 0.75, GROUP_2_ADHERENCE_RATE = 0.75/1.35 = 5/9,
ADHERENT_PATIENT_ADMISSION_RATE = 0.15, NON_ADHERENT_PATIENT_ADMISSION_RATE = 0.4,
COST_PER_ADMISSION = 14700. -/
def defaultConfig : Config where
  total_patients := 17000
  cohort_ratio := 20 / 41
  adherence_threshold := 4 / 5
  group1_adherence_rate := 3 / 4
  group2_adherence_rate := 5 / 9
  adherent_admission_rate := 3 / 20
  non_adherent_admission_rate := 2 / 5
  cost_per_admission := 14700

/-- Truncation toward zero, the semantics of Python `int(...)` on a float. -/
def pyInt (q : ℚ) : ℤ :=
  if q < 0 then -⌊-q⌋ else ⌊q⌋

/-- Round-half-to-even to the nearest integer, the rounding mode of Python
`round`. -/
def roundHalfToEven (q : ℚ) : ℤ :=
  if q - (⌊q⌋ : ℚ) < 1 / 2 then ⌊q⌋
  else if (1 : ℚ) / 2 < q - (⌊q⌋ : ℚ) then ⌊q⌋ + 1
  else if ⌊q⌋ % 2 = 0 then ⌊q⌋ else ⌊q⌋ + 1

/-- Python `round(q, 2)`. -/
def pyRound2 (q : ℚ) : ℚ :=
  (roundHalfToEven (q * 100) : ℚ) / 100

/-- Python `round(q, 4)`. -/
def pyRound4 (q : ℚ) : ℚ :=
  (roundHalfToEven (q * 10000) : ℚ) / 10000

/-- The pseudo-random primitives used by `generate_synthetic_data`, as oracle
functions.  Each draw site is indexed by the patient id of the loop iteration
that performs it (and the event index for admission dates); `poisson` also
receives the mean `lam` that the source passes to `np.random.poisson`. -/
structure RandomSource where
  randint_age : ℕ → ℕ
  rand : ℕ → ℚ
  uniform_high : ℕ → ℚ
  uniform_low : ℕ → ℚ
  poisson : ℕ → ℚ → ℕ
  date_between : ℕ → ℕ → ℤ

/-- Guarantees of the Python random primitives: `random.randint(65, 95)` is in
[65, 95]; `random.random()` is in [0, 1); `random.uniform(a, b)` is in [a, b]
(here [threshold, 1] and [0.2, threshold - 0.01]); `fake.date_between('-1y','today')`
is in the trailing one-year window. -/
def RandomSource.Valid (cfg : Config) (rs : RandomSource) : Prop :=
  (∀ i, 65 ≤ rs.randint_age i ∧ rs.randint_age i ≤ 95) ∧
  (∀ i, 0 ≤ rs.rand i ∧ rs.rand i < 1) ∧
  (∀ i, cfg.adherence_threshold ≤ rs.uniform_high i ∧ rs.uniform_high i ≤ 1) ∧
  (∀ i, 1 / 5 ≤ rs.uniform_low i ∧ rs.uniform_low i ≤ cfg.adherence_threshold - 1 / 100) ∧
  (∀ i j, -365 ≤ rs.date_between i j ∧ rs.date_between i j ≤ 0)

/-- Line 29: `num_group_1 = int(TOTAL_PATIENTS * GROUP_1_RATIO)`. -/
def num_group_1 (cfg : Config) : ℤ :=
  pyInt ((cfg.total_patients : ℚ) * cfg.cohort_ratio)

/-- Lines 28-34: one patient per id 1..N; the group is the first label if
`i <= num_group_1`, else the second; `age = random.randint(65, 95)`. -/
def genPatients (cfg : Config) (rs : RandomSource) : List Patient :=
  (List.range cfg.total_patients).map fun k =>
    { patient_id := k + 1
      assigned_group := if ((k : ℤ) + 1) ≤ num_group_1 cfg then Cohort.g1 else Cohort.g2
      age := rs.randint_age (k + 1) }

/-- The cohort target adherence rate of line 38. -/
def targetRate (cfg : Config) : Cohort → ℚ
  | Cohort.g1 => cfg.group1_adherence_rate
  | Cohort.g2 => cfg.group2_adherence_rate

/-- Lines 36-41: for each patient (in table order) draw
`random.uniform(ADHERENCE_THRESHOLD, 1.0)` if `random.random() < target` else
`random.uniform(0.2, ADHERENCE_THRESHOLD - 0.01)`, then `round(pdc_score, 4)`. -/
def genAdherence (cfg : Config) (rs : RandomSource) (patients : List Patient) :
    List AdherenceRecord :=
  patients.map fun p =>
    { patient_id := p.patient_id
      pdc_score :=
        pyRound4 (if rs.rand p.patient_id < targetRate cfg p.assigned_group then
            rs.uniform_high p.patient_id
          else
            rs.uniform_low p.patient_id) }

/-- Inner join of patients with adherence records on `patient_id`, keeping the
left (patient) order: the multiset semantics of both `pd.merge(..., on='patient_id')`
(line 45) and the SQL `JOIN ... ON p.patient_id = ma.patient_id` (line 77). -/
def joinAdherence (patients : List Patient) (ads : List AdherenceRecord) :
    List (Patient × AdherenceRecord) :=
  patients.flatMap fun p =>
    (ads.filter fun a => a.patient_id = p.patient_id).map fun a => (p, a)

/-- Lines 43-57: walk the merged rows with the running `admission_id_counter`;
for each row pick the admission intensity by `pdc_score >= ADHERENCE_THRESHOLD`,
draw `num_admissions = np.random.poisson(lam)` and emit that many events with
consecutive global ids and a `fake.date_between('-1y', 'today')` date. -/
def genAdmissionsFrom (cfg : Config) (rs : RandomSource) :
    List (Patient × AdherenceRecord) → ℕ → List AdmissionEvent
  | [], _ => []
  | (p, a) :: rest, ctr =>
    ((List.range (rs.poisson p.patient_id
        (if cfg.adherence_threshold ≤ a.pdc_score then cfg.adherent_admission_rate
         else cfg.non_adherent_admission_rate))).map fun j =>
      { admission_id := ctr + j
        patient_id := p.patient_id
        admission_date := rs.date_between p.patient_id j }) ++
    genAdmissionsFrom cfg rs rest
      (ctr + rs.poisson p.patient_id
        (if cfg.adherence_threshold ≤ a.pdc_score then cfg.adherent_admission_rate
         else cfg.non_adherent_admission_rate))

/-- The admission intensity selected at line 48:
`ADHERENT_PATIENT_ADMISSION_RATE if is_adherent else NON_ADHERENT_PATIENT_ADMISSION_RATE`
with `is_adherent = pdc_score >= ADHERENCE_THRESHOLD` (line 47). -/
def lamFor (cfg : Config) (a : AdherenceRecord) : ℚ :=
  if cfg.adherence_threshold ≤ a.pdc_score then cfg.adherent_admission_rate
  else cfg.non_adherent_admission_rate

/-- Lines 25-59: the whole of `generate_synthetic_data`, returning the three
record sets. -/
def generate_synthetic_data (cfg : Config) (rs : RandomSource) :
    List Patient × List AdherenceRecord × List AdmissionEvent :=
  (genPatients cfg rs,
   genAdherence cfg rs (genPatients cfg rs),
   genAdmissionsFrom cfg rs
     (joinAdherence (genPatients cfg rs) (genAdherence cfg rs (genPatients cfg rs))) 1)

/-- One row of the exported `adherence_analysis` list (line 82-85). -/
structure AdherenceRow where
  group : Cohort
  total_patients : ℕ
  adherent_patients : ℕ
  adherence_rate : ℚ
deriving DecidableEq, Repr

/-- One row of the exported `admissions_analysis` list (line 98-101). -/
structure AdmissionsRow where
  group : Cohort
  total_patients : ℕ
  total_admissions : ℕ
  admissions_per_1000 : ℚ
deriving DecidableEq, Repr

/-- The `summary_findings` object (lines 117-121). -/
structure SummaryFindings where
  adherence_uplift_pct : ℚ
  hospitalization_reduction_pct : ℚ
  cost_savings : ℚ
deriving DecidableEq, Repr

/-- The exported JSON document `final_results` (lines 114-122). -/
structure FinalResults where
  adherence_analysis : List AdherenceRow
  admissions_analysis : List AdmissionsRow
  summary_findings : SummaryFindings
deriving DecidableEq, Repr

/-- The patients of one cohort. -/
def cohortPatients (patients : List Patient) (g : Cohort) : List Patient :=
  patients.filter fun p => p.assigned_group = g

/-- The join rows of one cohort in the adherence query (lines 75-79). -/
def adherRowsFor (patients : List Patient) (ads : List AdherenceRecord) (g : Cohort) :
    List (Patient × AdherenceRecord) :=
  (joinAdherence patients ads).filter fun r => r.1.assigned_group = g

/-- One result row of the adherence query plus the rate computed at line 83:
`COUNT(*)`, `SUM(CASE WHEN ma.pdc_score >= thr THEN 1 ELSE 0 END)`, and
`adherence_rate = adherent/total*100`.  `GROUP BY` produces a row only for a
label with at least one join row. -/
def adherenceRowFor (cfg : Config) (patients : List Patient)
    (ads : List AdherenceRecord) (g : Cohort) : Option AdherenceRow :=
  if (adherRowsFor patients ads g).isEmpty then none
  else some
    { group := g
      total_patients := (adherRowsFor patients ads g).length
      adherent_patients :=
        ((adherRowsFor patients ads g).filter fun r =>
          cfg.adherence_threshold ≤ r.2.pdc_score).length
      adherence_rate :=
        (((adherRowsFor patients ads g).filter fun r =>
          cfg.adherence_threshold ≤ r.2.pdc_score).length : ℚ) /
        ((adherRowsFor patients ads g).length : ℚ) * 100 }

/-- The `adherence_data` list (lines 80-85): one row per cohort present, in
label order (`ORDER BY assigned_group`). -/
def adherenceAnalysis (cfg : Config) (patients : List Patient)
    (ads : List AdherenceRecord) : List AdherenceRow :=
  [Cohort.g1, Cohort.g2].filterMap (adherenceRowFor cfg patients ads)

/-- The admission events matching one patient id. -/
def admissionsFor (adm : List AdmissionEvent) (pid : ℕ) : List AdmissionEvent :=
  adm.filter fun e => e.patient_id = pid

/-- One result row of the admissions query plus the rate computed at line 99:
`LEFT JOIN` keeps every patient, `COUNT(DISTINCT p.patient_id)` counts the
distinct patient ids of the cohort, `COUNT(ha.admission_id)` counts the
matched (non-NULL) admission rows, and
`admissions_per_1000 = total_admissions/total_patients*1000`. -/
def admissionsRowFor (patients : List Patient) (adm : List AdmissionEvent)
    (g : Cohort) : Option AdmissionsRow :=
  if (cohortPatients patients g).isEmpty then none
  else some
    { group := g
      total_patients := ((cohortPatients patients g).map fun p => p.patient_id).dedup.length
      total_admissions :=
        ((cohortPatients patients g).map fun p => (admissionsFor adm p.patient_id).length).sum
      admissions_per_1000 :=
        (((cohortPatients patients g).map fun p =>
            (admissionsFor adm p.patient_id).length).sum : ℚ) /
        ((((cohortPatients patients g).map fun p => p.patient_id).dedup.length : ℕ) : ℚ) * 1000 }

/-- The `admissions_data` list (lines 96-101), one row per cohort present, in
label order. -/
def admissionsAnalysis (patients : List Patient) (adm : List AdmissionEvent) :
    List AdmissionsRow :=
  [Cohort.g1, Cohort.g2].filterMap (admissionsRowFor patients adm)

/-- Lines 70-126: the analysis pipeline.  `adherence_data[0]` / `[1]` (lines
86-87) and `admissions_data[0]` / `[1]` (lines 102-103) raise IndexError when a
cohort row is missing; the divisions at lines 88 and 104 raise
ZeroDivisionError on a zero denominator.  On success the function returns the
document that line 126 serialises; on an exception nothing is written. -/
def run_analysis_and_export (cfg : Config) (patients : List Patient)
    (ads : List AdherenceRecord) (adm : List AdmissionEvent) :
    Except String FinalResults :=
  match (adherenceAnalysis cfg patients ads)[0]?, (adherenceAnalysis cfg patients ads)[1]? with
  | some a0, some a1 =>
    if a1.adherence_rate = 0 then Except.error "ZeroDivisionError"
    else
      match (admissionsAnalysis patients adm)[0]?, (admissionsAnalysis patients adm)[1]? with
      | some d0, some d1 =>
        if d1.admissions_per_1000 = 0 then Except.error "ZeroDivisionError"
        else
          Except.ok
            { adherence_analysis := adherenceAnalysis cfg patients ads
              admissions_analysis := admissionsAnalysis patients adm
              summary_findings :=
                { adherence_uplift_pct :=
                    pyRound2 ((a0.adherence_rate / a1.adherence_rate - 1) * 100)
                  hospitalization_reduction_pct :=
                    pyRound2 ((1 - d0.admissions_per_1000 / d1.admissions_per_1000) * 100)
                  cost_savings :=
                    pyRound2 ((d1.admissions_per_1000 / 1000 * (d0.total_patients : ℚ) -
                      (d0.total_admissions : ℚ)) * cfg.cost_per_admission) } }
      | _, _ => Except.error "IndexError"
  | _, _ => Except.error "IndexError"

/-! Concrete inputs used by the witnesses and counterexamples. -/

/-- C5 witness: a concrete valid random source and a concrete patient. -/
def rsW : RandomSource where
  randint_age := fun _ => 70
  rand := fun _ => 1 / 2
  uniform_high := fun _ => 9 / 10
  uniform_low := fun _ => 1 / 2
  poisson := fun _ lam => if lam = 3 / 20 then 0 else 2
  date_between := fun _ _ => -3

/-- C3 witness configuration: a small population with ratio 1/2. -/
def cfgSmall : Config :=
  { defaultConfig with total_patients := 4, cohort_ratio := 1 / 2 }

/-- C6 witness configuration: a single-patient population. -/
def cfgOne : Config :=
  { defaultConfig with total_patients := 1 }

/-- Concrete aggregator input: three patients per cohort, one adherent
patient in the first cohort, three in the second, one admission for a
second-cohort patient. -/
def psX : List Patient :=
  [⟨1, Cohort.g1, 70⟩, ⟨2, Cohort.g1, 71⟩, ⟨3, Cohort.g1, 72⟩,
   ⟨4, Cohort.g2, 73⟩, ⟨5, Cohort.g2, 74⟩, ⟨6, Cohort.g2, 75⟩]

/-- The score function matching `adsX`. -/
def scoreX : ℕ → ℚ :=
  fun i => if i = 1 then 9 / 10 else if i ≤ 3 then 1 / 10 else 9 / 10

/-- One adherence record per patient of `psX`. -/
def adsX : List AdherenceRecord :=
  [⟨1, 9 / 10⟩, ⟨2, 1 / 10⟩, ⟨3, 1 / 10⟩, ⟨4, 9 / 10⟩, ⟨5, 9 / 10⟩, ⟨6, 9 / 10⟩]

/-- A single admission event, for patient 4 of the second cohort. -/
def admX : List AdmissionEvent := [⟨1, 4, -5⟩]

/-- Degenerate input for C8: the second cohort is empty. -/
def psY : List Patient := [⟨1, Cohort.g1, 70⟩]

/-- The document exported on the concrete input `psX`, `adsX`, `admX`. -/
def docX : FinalResults :=
  { adherence_analysis := [⟨Cohort.g1, 3, 1, 100 / 3⟩, ⟨Cohort.g2, 3, 3, 100⟩]
    admissions_analysis := [⟨Cohort.g1, 3, 0, 0⟩, ⟨Cohort.g2, 3, 1, 1000 / 3⟩]
    summary_findings := ⟨-6667 / 100, 100, 14700⟩ }

/-! Basic facts about the rounding helpers. -/

theorem roundHalfToEven_le_intCast {q : ℚ} {n : ℤ} (h : q ≤ (n : ℚ)) :
    roundHalfToEven q ≤ n := by
  have hf : ⌊q⌋ ≤ n := by
    have h2 := Int.floor_le_floor h
    rwa [Int.floor_intCast] at h2
  have hfle : (⌊q⌋ : ℚ) ≤ q := Int.floor_le q
  unfold roundHalfToEven
  split_ifs with h1 h2 h3
  · exact hf
  · have hlt : (⌊q⌋ : ℚ) < (n : ℚ) := by linarith
    have hlt2 : ⌊q⌋ < n := by exact_mod_cast hlt
    omega
  · exact hf
  · have heq : q - (⌊q⌋ : ℚ) = 1 / 2 := le_antisymm (not_lt.mp h2) (not_lt.mp h1)
    have hlt : (⌊q⌋ : ℚ) < (n : ℚ) := by linarith
    have hlt2 : ⌊q⌋ < n := by exact_mod_cast hlt
    omega

theorem le_roundHalfToEven_intCast {q : ℚ} {n : ℤ} (h : (n : ℚ) ≤ q) :
    n ≤ roundHalfToEven q := by
  have hf : n ≤ ⌊q⌋ := by
    have h2 := Int.floor_le_floor h
    rwa [Int.floor_intCast] at h2
  unfold roundHalfToEven
  split_ifs <;> omega

theorem roundHalfToEven_intCast (z : ℤ) : roundHalfToEven (z : ℚ) = z := by
  unfold roundHalfToEven
  rw [Int.floor_intCast]
  norm_num

theorem pyRound4_le {q : ℚ} {n : ℤ} (h : q ≤ (n : ℚ) / 10000) :
    pyRound4 q ≤ (n : ℚ) / 10000 := by
  have h10 : q * 10000 ≤ (n : ℚ) := by linarith
  have hr := roundHalfToEven_le_intCast h10
  have hc : ((roundHalfToEven (q * 10000) : ℤ) : ℚ) ≤ (n : ℚ) := by exact_mod_cast hr
  unfold pyRound4
  linarith

theorem le_pyRound4 {q : ℚ} {n : ℤ} (h : (n : ℚ) / 10000 ≤ q) :
    (n : ℚ) / 10000 ≤ pyRound4 q := by
  have h10 : (n : ℚ) ≤ q * 10000 := by linarith
  have hr := le_roundHalfToEven_intCast h10
  have hc : (n : ℚ) ≤ ((roundHalfToEven (q * 10000) : ℤ) : ℚ) := by exact_mod_cast hr
  unfold pyRound4
  linarith

theorem pyRound2_idem (q : ℚ) : pyRound2 (pyRound2 q) = pyRound2 q := by
  unfold pyRound2
  rw [div_mul_cancel₀ _ (by norm_num : (100 : ℚ) ≠ 0), roundHalfToEven_intCast]

/-- C5: for every patient, the generated adherence score is obtained by a
Bernoulli trial, comparing one `random.random()` draw against the patient's
cohort target rate: on success the score is the 4-digit rounding of a draw
from [threshold, 1.0], on failure of a draw from [0.2, threshold - 0.01].
Whenever the threshold is a 4-decimal-digit number (`zt / 10000`, as the
source constant 0.8 is), a success draw always yields a score that classifies
as adherent (score ≥ threshold), and a failure draw never does. -/
theorem adherence_score_bernoulli_split (cfg : Config) (rs : RandomSource)
    (hv : rs.Valid cfg) (zt : ℤ) (hzt : (zt : ℚ) = cfg.adherence_threshold * 10000)
    (patients : List Patient) (p : Patient) (hp : p ∈ patients) :
    ∃ rec ∈ genAdherence cfg rs patients,
      rec.patient_id = p.patient_id ∧
      rec.pdc_score = pyRound4 (if rs.rand p.patient_id < targetRate cfg p.assigned_group
        then rs.uniform_high p.patient_id else rs.uniform_low p.patient_id) ∧
      (rs.rand p.patient_id < targetRate cfg p.assigned_group →
        cfg.adherence_threshold ≤ rec.pdc_score) ∧
      (¬ rs.rand p.patient_id < targetRate cfg p.assigned_group →
        rec.pdc_score < cfg.adherence_threshold) := by
  have hthr : cfg.adherence_threshold = (zt : ℚ) / 10000 := by
    rw [eq_div_iff (by norm_num : (10000 : ℚ) ≠ 0), hzt, mul_comm]
  refine ⟨_, List.mem_map_of_mem _ hp, rfl, rfl, ?_, ?_⟩
  · intro hsucc
    simp only [if_pos hsucc]
    have hhigh := (hv.2.2.1 p.patient_id).1
    rw [hthr]
    exact le_pyRound4 (by rw [← hthr]; exact hhigh)
  · intro hfail
    simp only [if_neg hfail]
    have hlow := (hv.2.2.2.1 p.patient_id).2
    have hle : rs.uniform_low p.patient_id ≤ ((zt - 100 : ℤ) : ℚ) / 10000 := by
      push_cast
      rw [hthr] at hlow
      linarith
    have := pyRound4_le hle
    have hlt : ((zt - 100 : ℤ) : ℚ) / 10000 < cfg.adherence_threshold := by
      rw [hthr]
      push_cast
      linarith
    linarith

theorem rsW_valid : rsW.Valid defaultConfig := by
  refine ⟨fun i => ⟨?_, ?_⟩, fun i => ⟨?_, ?_⟩, fun i => ⟨?_, ?_⟩, fun i => ⟨?_, ?_⟩,
    fun i j => ⟨?_, ?_⟩⟩ <;> norm_num [rsW, defaultConfig]

theorem adherence_score_bernoulli_split_witness :
    rsW.Valid defaultConfig ∧
    ((8000 : ℤ) : ℚ) = defaultConfig.adherence_threshold * 10000 ∧
    (⟨1, Cohort.g1, 70⟩ : Patient) ∈ [(⟨1, Cohort.g1, 70⟩ : Patient)] ∧
    ∃ rec ∈ genAdherence defaultConfig rsW [⟨1, Cohort.g1, 70⟩],
      rec.patient_id = (1 : ℕ) ∧
      rec.pdc_score = pyRound4 (if rsW.rand 1 < targetRate defaultConfig Cohort.g1
        then rsW.uniform_high 1 else rsW.uniform_low 1) ∧
      (rsW.rand 1 < targetRate defaultConfig Cohort.g1 →
        defaultConfig.adherence_threshold ≤ rec.pdc_score) ∧
      (¬ rsW.rand 1 < targetRate defaultConfig Cohort.g1 →
        rec.pdc_score < defaultConfig.adherence_threshold) :=
  ⟨rsW_valid, by norm_num [defaultConfig], List.mem_singleton.mpr rfl,
    adherence_score_bernoulli_split defaultConfig rsW rsW_valid 8000
      (by norm_num [defaultConfig]) [⟨1, Cohort.g1, 70⟩] ⟨1, Cohort.g1, 70⟩
      (List.mem_singleton.mpr rfl)⟩

/-- C10: under the default threshold 0.8, every generated adherence score lies
in [0.2, 1.0], is a 4-decimal-digit number, and never lies strictly between
0.79 and 0.8. -/
theorem adherence_score_range_quantized (cfg : Config) (rs : RandomSource)
    (hv : rs.Valid cfg) (hthr : cfg.adherence_threshold = 4 / 5)
    (patients : List Patient) (rec : AdherenceRecord)
    (hrec : rec ∈ genAdherence cfg rs patients) :
    1 / 5 ≤ rec.pdc_score ∧ rec.pdc_score ≤ 1 ∧
    (∃ z : ℤ, rec.pdc_score = (z : ℚ) / 10000) ∧
    ¬ (79 / 100 < rec.pdc_score ∧ rec.pdc_score < 4 / 5) := by
  rcases List.mem_map.mp hrec with ⟨p, _, rfl⟩
  simp only [genAdherence]
  by_cases hs : rs.rand p.patient_id < targetRate cfg p.assigned_group
  · simp only [if_pos hs]
    have hhigh := hv.2.2.1 p.patient_id
    rw [hthr] at hhigh
    have h1 : (4 : ℚ) / 5 = ((8000 : ℤ) : ℚ) / 10000 := by norm_num
    have h2 : (1 : ℚ) = ((10000 : ℤ) : ℚ) / 10000 := by norm_num
    have hlo : ((8000 : ℤ) : ℚ) / 10000 ≤ pyRound4 (rs.uniform_high p.patient_id) :=
      le_pyRound4 (by rw [← h1]; exact hhigh.1)
    have hhi : pyRound4 (rs.uniform_high p.patient_id) ≤ ((10000 : ℤ) : ℚ) / 10000 :=
      pyRound4_le (by rw [← h2]; exact hhigh.2)
    refine ⟨by push_cast at hlo ⊢; linarith, by push_cast at hhi ⊢; linarith,
      ⟨_, rfl⟩, ?_⟩
    rintro ⟨-, hub⟩
    push_cast at hlo
    linarith
  · simp only [if_neg hs]
    have hlow := hv.2.2.2.1 p.patient_id
    rw [hthr] at hlow
    have h1 : (1 : ℚ) / 5 = ((2000 : ℤ) : ℚ) / 10000 := by norm_num
    have h2 : (4 : ℚ) / 5 - 1 / 100 = ((7900 : ℤ) : ℚ) / 10000 := by norm_num
    have hlo : ((2000 : ℤ) : ℚ) / 10000 ≤ pyRound4 (rs.uniform_low p.patient_id) :=
      le_pyRound4 (by rw [← h1]; exact hlow.1)
    have hhi : pyRound4 (rs.uniform_low p.patient_id) ≤ ((7900 : ℤ) : ℚ) / 10000 :=
      pyRound4_le (by rw [← h2]; exact hlow.2)
    refine ⟨by push_cast at hlo ⊢; linarith, by push_cast at hhi ⊢; linarith,
      ⟨_, rfl⟩, ?_⟩
    rintro ⟨hlb, -⟩
    push_cast at hhi
    linarith

theorem adherence_score_range_quantized_witness :
    rsW.Valid defaultConfig ∧ defaultConfig.adherence_threshold = 4 / 5 ∧
    (⟨1, pyRound4 (9 / 10)⟩ : AdherenceRecord) ∈
      genAdherence defaultConfig rsW [⟨1, Cohort.g1, 70⟩] ∧
    (1 / 5 ≤ pyRound4 ((9 : ℚ) / 10) ∧ pyRound4 ((9 : ℚ) / 10) ≤ 1 ∧
      (∃ z : ℤ, pyRound4 ((9 : ℚ) / 10) = (z : ℚ) / 10000) ∧
      ¬ (79 / 100 < pyRound4 ((9 : ℚ) / 10) ∧ pyRound4 ((9 : ℚ) / 10) < 4 / 5)) := by
  have hmem : (⟨1, pyRound4 (9 / 10)⟩ : AdherenceRecord) ∈
      genAdherence defaultConfig rsW [⟨1, Cohort.g1, 70⟩] := by
    norm_num [genAdherence, rsW, defaultConfig, targetRate]
  exact ⟨rsW_valid, rfl, hmem,
    adherence_score_range_quantized defaultConfig rsW rsW_valid rfl _ _ hmem⟩

/-! Dense sequential admission ids. -/

theorem genAdmissionsFrom_map_ids (cfg : Config) (rs : RandomSource) :
    ∀ (l : List (Patient × AdherenceRecord)) (ctr : ℕ),
      ((genAdmissionsFrom cfg rs l ctr).map fun e => e.admission_id) =
        List.range' ctr (genAdmissionsFrom cfg rs l ctr).length := by
  intro l
  induction l with
  | nil => intro ctr; simp [genAdmissionsFrom]
  | cons hd rest ih =>
    intro ctr
    obtain ⟨p, a⟩ := hd
    simp only [genAdmissionsFrom, List.map_append, List.map_map, List.length_append,
      List.length_map, List.length_range]
    rw [ih]
    set n := rs.poisson p.patient_id
      (if cfg.adherence_threshold ≤ a.pdc_score then cfg.adherent_admission_rate
       else cfg.non_adherent_admission_rate) with hn
    set L := (genAdmissionsFrom cfg rs rest (ctr + n)).length with hL
    have happ := List.range'_append ctr n L 1
    simp only [one_mul] at happ
    rw [Nat.add_comm n L, ← happ]
    congr 1
    rw [List.range'_eq_map_range]
    apply List.map_congr_left
    intro x _
    simp

/-- C3: for every valid configuration (N > 0, ratio in [0, 1]) and any random
source, the generated patient ids are exactly 1..N in order (so no gaps, no
reuse, no shared ids), the cohort split point is floor(N * ratio), patients
up to that index are in the first cohort and the rest in the second, and the
admission ids are densely sequential starting at 1. -/
theorem generator_id_spaces (cfg : Config) (rs : RandomSource)
    (hN : 0 < cfg.total_patients) (hr0 : 0 ≤ cfg.cohort_ratio)
    (hr1 : cfg.cohort_ratio ≤ 1) :
    ((generate_synthetic_data cfg rs).1.map fun p => p.patient_id) =
      List.range' 1 cfg.total_patients ∧
    num_group_1 cfg = ⌊(cfg.total_patients : ℚ) * cfg.cohort_ratio⌋ ∧
    (∀ p ∈ (generate_synthetic_data cfg rs).1,
      p.assigned_group =
        if (p.patient_id : ℤ) ≤ num_group_1 cfg then Cohort.g1 else Cohort.g2) ∧
    ((generate_synthetic_data cfg rs).2.2.map fun e => e.admission_id) =
      List.range' 1 (generate_synthetic_data cfg rs).2.2.length := by
  refine ⟨?_, ?_, ?_, ?_⟩
  · simp only [generate_synthetic_data, genPatients, List.map_map]
    rw [List.range'_eq_map_range]
    apply List.map_congr_left
    intro x _
    simp [Nat.add_comm]
  · unfold num_group_1 pyInt
    rw [if_neg]
    push_neg
    exact mul_nonneg (Nat.cast_nonneg _) hr0
  · intro p hp
    simp only [generate_synthetic_data, genPatients, List.mem_map] at hp
    obtain ⟨k, -, rfl⟩ := hp
    push_cast
    rfl
  · exact genAdmissionsFrom_map_ids cfg rs _ 1

theorem generator_id_spaces_witness :
    0 < cfgSmall.total_patients ∧ 0 ≤ cfgSmall.cohort_ratio ∧ cfgSmall.cohort_ratio ≤ 1 ∧
    (((generate_synthetic_data cfgSmall rsW).1.map fun p => p.patient_id) =
       List.range' 1 cfgSmall.total_patients ∧
     num_group_1 cfgSmall = ⌊(cfgSmall.total_patients : ℚ) * cfgSmall.cohort_ratio⌋ ∧
     (∀ p ∈ (generate_synthetic_data cfgSmall rsW).1,
       p.assigned_group =
         if (p.patient_id : ℤ) ≤ num_group_1 cfgSmall then Cohort.g1 else Cohort.g2) ∧
     ((generate_synthetic_data cfgSmall rsW).2.2.map fun e => e.admission_id) =
       List.range' 1 (generate_synthetic_data cfgSmall rsW).2.2.length) :=
  ⟨by norm_num [cfgSmall, defaultConfig], by norm_num [cfgSmall, defaultConfig],
   by norm_num [cfgSmall, defaultConfig],
   generator_id_spaces cfgSmall rsW (by norm_num [cfgSmall, defaultConfig])
     (by norm_num [cfgSmall, defaultConfig]) (by norm_num [cfgSmall, defaultConfig])⟩

/-! Per-patient admission counts in the generated admission set. -/

theorem genAdmissionsFrom_cons (cfg : Config) (rs : RandomSource)
    (p : Patient) (a : AdherenceRecord) (rest : List (Patient × AdherenceRecord))
    (ctr : ℕ) :
    genAdmissionsFrom cfg rs ((p, a) :: rest) ctr =
      ((List.range (rs.poisson p.patient_id (lamFor cfg a))).map fun j =>
        { admission_id := ctr + j
          patient_id := p.patient_id
          admission_date := rs.date_between p.patient_id j }) ++
      genAdmissionsFrom cfg rs rest (ctr + rs.poisson p.patient_id (lamFor cfg a)) :=
  rfl

theorem genAdmissionsFrom_mem_pid (cfg : Config) (rs : RandomSource) :
    ∀ (l : List (Patient × AdherenceRecord)) (ctr : ℕ) (e : AdmissionEvent),
      e ∈ genAdmissionsFrom cfg rs l ctr →
      e.patient_id ∈ l.map fun r => r.1.patient_id := by
  intro l
  induction l with
  | nil => intro ctr e he; simp [genAdmissionsFrom] at he
  | cons hd rest ih =>
    intro ctr e he
    obtain ⟨p, a⟩ := hd
    rw [genAdmissionsFrom_cons] at he
    rcases List.mem_append.mp he with he1 | he2
    · rcases List.mem_map.mp he1 with ⟨j, -, rfl⟩
      simp
    · simp only [List.map_cons, List.mem_cons]
      exact Or.inr (ih _ e he2)

theorem genAdmissionsFrom_dates (cfg : Config) (rs : RandomSource)
    (hv : rs.Valid cfg) :
    ∀ (l : List (Patient × AdherenceRecord)) (ctr : ℕ) (e : AdmissionEvent),
      e ∈ genAdmissionsFrom cfg rs l ctr →
      -365 ≤ e.admission_date ∧ e.admission_date ≤ 0 := by
  intro l
  induction l with
  | nil => intro ctr e he; simp [genAdmissionsFrom] at he
  | cons hd rest ih =>
    intro ctr e he
    obtain ⟨p, a⟩ := hd
    rw [genAdmissionsFrom_cons] at he
    rcases List.mem_append.mp he with he1 | he2
    · rcases List.mem_map.mp he1 with ⟨j, -, rfl⟩
      exact hv.2.2.2.2 p.patient_id j
    · exact ih _ e he2

theorem genAdmissionsFrom_count (cfg : Config) (rs : RandomSource) :
    ∀ (l : List (Patient × AdherenceRecord)) (ctr : ℕ) (p : Patient)
      (a : AdherenceRecord),
      (l.map fun r => r.1.patient_id).Nodup → (p, a) ∈ l →
      (admissionsFor (genAdmissionsFrom cfg rs l ctr) p.patient_id).length =
        rs.poisson p.patient_id (lamFor cfg a) := by
  intro l
  induction l with
  | nil => intro ctr p a _ hmem; simp at hmem
  | cons hd rest ih =>
    intro ctr p a hnd hmem
    obtain ⟨q, b⟩ := hd
    simp only [List.map_cons, List.nodup_cons] at hnd
    rw [genAdmissionsFrom_cons]
    unfold admissionsFor
    rw [List.filter_append, List.length_append]
    rcases List.mem_cons.mp hmem with heq | hmem2
    · injection heq with h1 h2
      subst h1
      subst h2
      have hhead : (((List.range (rs.poisson p.patient_id (lamFor cfg a))).map fun j =>
          ({ admission_id := ctr + j
             patient_id := p.patient_id
             admission_date := rs.date_between p.patient_id j } : AdmissionEvent)).filter
            fun e => e.patient_id = p.patient_id) =
          (List.range (rs.poisson p.patient_id (lamFor cfg a))).map fun j =>
          ({ admission_id := ctr + j
             patient_id := p.patient_id
             admission_date := rs.date_between p.patient_id j } : AdmissionEvent) := by
        apply List.filter_eq_self.mpr
        intro e he
        rcases List.mem_map.mp he with ⟨j, -, rfl⟩
        simp
      have htail : ((genAdmissionsFrom cfg rs rest
          (ctr + rs.poisson p.patient_id (lamFor cfg a))).filter
            fun e => e.patient_id = p.patient_id) = [] := by
        apply List.filter_eq_nil_iff.mpr
        intro e he
        have hpin := genAdmissionsFrom_mem_pid cfg rs rest _ e he
        simp only [decide_eq_true_eq]
        intro hcontra
        rw [hcontra] at hpin
        exact hnd.1 hpin
      rw [hhead, htail]
      simp
    · have hne : q.patient_id ≠ p.patient_id := by
        intro hcontra
        apply hnd.1
        rw [hcontra]
        exact List.mem_map.mpr ⟨(p, a), hmem2, rfl⟩
      have hhead : (((List.range (rs.poisson q.patient_id (lamFor cfg b))).map fun j =>
          ({ admission_id := ctr + j
             patient_id := q.patient_id
             admission_date := rs.date_between q.patient_id j } : AdmissionEvent)).filter
            fun e => e.patient_id = p.patient_id) = [] := by
        apply List.filter_eq_nil_iff.mpr
        intro e he
        rcases List.mem_map.mp he with ⟨j, -, rfl⟩
        simp [hne]
      rw [hhead]
      simp only [List.length_nil, Nat.zero_add]
      exact ih _ p a hnd.2 hmem2

/-! The merged patient-adherence rows of the generator. -/

theorem flatMap_eq_map_of_forall_singleton {α β : Type} (l : List α)
    (g : α → List β) (h : α → β) (hgl : ∀ p ∈ l, g p = [h p]) :
    l.flatMap g = l.map h := by
  induction l with
  | nil => rfl
  | cons hd rest ih =>
    rw [List.flatMap_cons, hgl hd (List.mem_cons_self hd rest), List.map_cons,
      ih fun p hp => hgl p (List.mem_cons_of_mem hd hp)]
    rfl

theorem filter_map_single_record (f : Patient → AdherenceRecord)
    (hf : ∀ p, (f p).patient_id = p.patient_id) :
    ∀ (ps : List Patient), (ps.map fun p => p.patient_id).Nodup → ∀ p ∈ ps,
      ((ps.map f).filter fun a => a.patient_id = p.patient_id) = [f p] := by
  intro ps
  induction ps with
  | nil => intro _ p hp; simp at hp
  | cons hd rest ih =>
    intro hnd p hp
    simp only [List.map_cons, List.nodup_cons] at hnd
    simp only [List.map_cons, List.filter_cons]
    rcases List.mem_cons.mp hp with rfl | hp2
    · rw [if_pos (by simp [hf])]
      have hrest : ((rest.map f).filter fun a => a.patient_id = p.patient_id) = [] := by
        apply List.filter_eq_nil_iff.mpr
        intro a ha
        rcases List.mem_map.mp ha with ⟨r, hr, rfl⟩
        simp only [hf, decide_eq_true_eq]
        intro hcontra
        apply hnd.1
        rw [← hcontra]
        exact List.mem_map.mpr ⟨r, hr, rfl⟩
      rw [hrest]
    · have hne : ¬ ((f hd).patient_id = p.patient_id) := by
        rw [hf]
        intro hcontra
        apply hnd.1
        rw [hcontra]
        exact List.mem_map.mpr ⟨p, hp2, rfl⟩
      rw [if_neg (by simpa using hne)]
      exact ih hnd.2 p hp2

theorem joinAdherence_of_map (f : Patient → AdherenceRecord)
    (hf : ∀ p, (f p).patient_id = p.patient_id) (ps : List Patient)
    (hnd : (ps.map fun p => p.patient_id).Nodup) :
    joinAdherence ps (ps.map f) = ps.map fun p => (p, f p) := by
  unfold joinAdherence
  apply flatMap_eq_map_of_forall_singleton
  intro p hp
  rw [filter_map_single_record f hf ps hnd p hp]
  rfl

theorem genPatients_map_pid (cfg : Config) (rs : RandomSource) :
    ((genPatients cfg rs).map fun p => p.patient_id) =
      List.range' 1 cfg.total_patients := by
  simp only [genPatients, List.map_map]
  rw [List.range'_eq_map_range]
  apply List.map_congr_left
  intro x _
  simp [Nat.add_comm]

/-- C6: for every patient of the generated data set (appearing with their
adherence record in the merged rows), the patient's number of admission events
equals the Poisson draw taken at the intensity selected by the adherence
classification `pdc_score >= threshold` — the adherent intensity for adherent
patients and the non-adherent one otherwise (in the source configuration the
adherent intensity 0.15 is the low one, below the non-adherent 0.40); the
admission ids are sequential global ids starting at 1, and every admission
date lies in the trailing one-year window. -/
theorem admissions_per_patient (cfg : Config) (rs : RandomSource)
    (hv : rs.Valid cfg) (p : Patient) (a : AdherenceRecord)
    (hmem : (p, a) ∈ joinAdherence (generate_synthetic_data cfg rs).1
      (generate_synthetic_data cfg rs).2.1) :
    (admissionsFor (generate_synthetic_data cfg rs).2.2 p.patient_id).length =
      rs.poisson p.patient_id (lamFor cfg a) ∧
    lamFor cfg a = (if cfg.adherence_threshold ≤ a.pdc_score
      then cfg.adherent_admission_rate else cfg.non_adherent_admission_rate) ∧
    defaultConfig.adherent_admission_rate < defaultConfig.non_adherent_admission_rate ∧
    ((generate_synthetic_data cfg rs).2.2.map fun e => e.admission_id) =
      List.range' 1 (generate_synthetic_data cfg rs).2.2.length ∧
    ∀ e ∈ (generate_synthetic_data cfg rs).2.2,
      -365 ≤ e.admission_date ∧ e.admission_date ≤ 0 := by
  have hnd : ((genPatients cfg rs).map fun q => q.patient_id).Nodup := by
    rw [genPatients_map_pid]
    exact List.nodup_range' _ _
  have hjoin : joinAdherence (genPatients cfg rs)
      (genAdherence cfg rs (genPatients cfg rs)) =
      (genPatients cfg rs).map fun q =>
        (q, ({ patient_id := q.patient_id
               pdc_score := pyRound4
                 (if rs.rand q.patient_id < targetRate cfg q.assigned_group then
                   rs.uniform_high q.patient_id else rs.uniform_low q.patient_id) } :
           AdherenceRecord)) :=
    joinAdherence_of_map _ (fun _ => rfl) _ hnd
  have hmem2 : (p, a) ∈ joinAdherence (genPatients cfg rs)
      (genAdherence cfg rs (genPatients cfg rs)) := hmem
  have hndm : ((joinAdherence (genPatients cfg rs)
      (genAdherence cfg rs (genPatients cfg rs))).map
        fun r => r.1.patient_id).Nodup := by
    rw [hjoin, List.map_map]
    exact hnd
  refine ⟨?_, rfl, by norm_num [defaultConfig], ?_, ?_⟩
  · exact genAdmissionsFrom_count cfg rs _ 1 p a hndm hmem2
  · exact genAdmissionsFrom_map_ids cfg rs _ 1
  · intro e he
    exact genAdmissionsFrom_dates cfg rs hv _ 1 e he

theorem rsW_valid_cfgOne : rsW.Valid cfgOne := by
  refine ⟨fun i => ⟨?_, ?_⟩, fun i => ⟨?_, ?_⟩, fun i => ⟨?_, ?_⟩, fun i => ⟨?_, ?_⟩,
    fun i j => ⟨?_, ?_⟩⟩ <;> norm_num [rsW, cfgOne, defaultConfig]

theorem admissions_per_patient_witness :
    rsW.Valid cfgOne ∧
    ((⟨1, Cohort.g2, 70⟩ : Patient), (⟨1, 9 / 10⟩ : AdherenceRecord)) ∈
      joinAdherence (generate_synthetic_data cfgOne rsW).1
        (generate_synthetic_data cfgOne rsW).2.1 ∧
    ((admissionsFor (generate_synthetic_data cfgOne rsW).2.2 1).length =
      rsW.poisson 1 (lamFor cfgOne ⟨1, 9 / 10⟩) ∧
     lamFor cfgOne ⟨1, 9 / 10⟩ = (if cfgOne.adherence_threshold ≤ (9 : ℚ) / 10
       then cfgOne.adherent_admission_rate else cfgOne.non_adherent_admission_rate) ∧
     defaultConfig.adherent_admission_rate < defaultConfig.non_adherent_admission_rate ∧
     ((generate_synthetic_data cfgOne rsW).2.2.map fun e => e.admission_id) =
       List.range' 1 (generate_synthetic_data cfgOne rsW).2.2.length ∧
     ∀ e ∈ (generate_synthetic_data cfgOne rsW).2.2,
       -365 ≤ e.admission_date ∧ e.admission_date ≤ 0) := by
  have hmem : ((⟨1, Cohort.g2, 70⟩ : Patient), (⟨1, 9 / 10⟩ : AdherenceRecord)) ∈
      joinAdherence (generate_synthetic_data cfgOne rsW).1
        (generate_synthetic_data cfgOne rsW).2.1 := by
    norm_num [generate_synthetic_data, genPatients, genAdherence, joinAdherence,
      num_group_1, pyInt, targetRate, pyRound4, roundHalfToEven, rsW, cfgOne,
      defaultConfig, List.flatMap_cons, List.filter]
  exact ⟨rsW_valid_cfgOne, hmem,
    admissions_per_patient cfgOne rsW rsW_valid_cfgOne _ _ hmem⟩

/-! Structure of the grouped adherence rows. -/

theorem adherRowsFor_eq (ps : List Patient) (ads : List AdherenceRecord) (g : Cohort) :
    adherRowsFor ps ads g = (cohortPatients ps g).flatMap fun p =>
      (ads.filter fun a => a.patient_id = p.patient_id).map fun a => (p, a) := by
  unfold adherRowsFor joinAdherence cohortPatients
  induction ps with
  | nil => rfl
  | cons hd rest ih =>
    simp only [List.flatMap_cons, List.filter_append, List.filter_cons]
    by_cases hg : hd.assigned_group = g
    · rw [if_pos (by simpa using hg)]
      simp only [List.flatMap_cons]
      congr 1
      apply List.filter_eq_self.mpr
      intro r hr
      rcases List.mem_map.mp hr with ⟨a, -, rfl⟩
      simpa using hg
    · rw [if_neg (by simpa using hg)]
      rw [List.filter_eq_nil_iff.mpr ?_, List.nil_append]
      · exact ih
      · intro r hr
        rcases List.mem_map.mp hr with ⟨a, -, rfl⟩
        simpa using hg

theorem adherRowsFor_of_score (ps : List Patient) (ads : List AdherenceRecord)
    (score : ℕ → ℚ)
    (h11 : ∀ p ∈ ps, (ads.filter fun a => a.patient_id = p.patient_id) =
      [⟨p.patient_id, score p.patient_id⟩]) (g : Cohort) :
    adherRowsFor ps ads g = (cohortPatients ps g).map fun p =>
      (p, (⟨p.patient_id, score p.patient_id⟩ : AdherenceRecord)) := by
  rw [adherRowsFor_eq]
  apply flatMap_eq_map_of_forall_singleton
  intro p hp
  rw [h11 p (List.mem_of_mem_filter hp)]
  rfl

theorem cohort_partition (ps : List Patient) :
    (cohortPatients ps Cohort.g1).length + (cohortPatients ps Cohort.g2).length =
      ps.length := by
  unfold cohortPatients
  induction ps with
  | nil => rfl
  | cons hd rest ih =>
    simp only [List.filter_cons]
    cases hcg : hd.assigned_group <;> simp [hcg] <;> omega

/-- The per-cohort adherence summary row under the data-model invariant that
each patient has exactly one adherence record (spec section 3): total patient
count, adherent count, and the rate formula with its [0, 100] bounds. -/
theorem adherenceRowFor_spec (cfg : Config) (ps : List Patient)
    (ads : List AdherenceRecord) (score : ℕ → ℚ)
    (h11 : ∀ p ∈ ps, (ads.filter fun a => a.patient_id = p.patient_id) =
      [⟨p.patient_id, score p.patient_id⟩])
    (g : Cohort) (hg : cohortPatients ps g ≠ []) :
    ∃ row : AdherenceRow, adherenceRowFor cfg ps ads g = some row ∧
      row.group = g ∧
      row.total_patients = (cohortPatients ps g).length ∧
      row.adherent_patients = ((cohortPatients ps g).filter fun p =>
        cfg.adherence_threshold ≤ score p.patient_id).length ∧
      row.adherence_rate =
        (row.adherent_patients : ℚ) / (row.total_patients : ℚ) * 100 ∧
      0 ≤ row.adherence_rate ∧ row.adherence_rate ≤ 100 := by
  have hrows := adherRowsFor_of_score ps ads score h11 g
  have hne : ¬ ((adherRowsFor ps ads g).isEmpty = true) := by
    rw [List.isEmpty_iff, hrows, List.map_eq_nil_iff]
    exact hg
  unfold adherenceRowFor
  rw [if_neg hne]
  have htot : (adherRowsFor ps ads g).length = (cohortPatients ps g).length := by
    rw [hrows, List.length_map]
  have hadh : ((adherRowsFor ps ads g).filter fun r =>
      cfg.adherence_threshold ≤ r.2.pdc_score).length =
      ((cohortPatients ps g).filter fun p =>
        cfg.adherence_threshold ≤ score p.patient_id).length := by
    rw [hrows, List.filter_map, List.length_map]
    rfl
  refine ⟨_, rfl, rfl, htot, hadh, rfl, ?_, ?_⟩
  · apply mul_nonneg _ (by norm_num)
    exact div_nonneg (Nat.cast_nonneg _) (Nat.cast_nonneg _)
  · have hle : ((adherRowsFor ps ads g).filter fun r =>
        cfg.adherence_threshold ≤ r.2.pdc_score).length ≤
        (adherRowsFor ps ads g).length := List.length_filter_le _ _
    have hpos : 0 < (adherRowsFor ps ads g).length := by
      rw [List.length_pos]
      intro hcontra
      exact hne (List.isEmpty_iff.mpr hcontra)
    have hdiv : (((adherRowsFor ps ads g).filter fun r =>
        cfg.adherence_threshold ≤ r.2.pdc_score).length : ℚ) /
        ((adherRowsFor ps ads g).length : ℚ) ≤ 1 := by
      rw [div_le_one (by exact_mod_cast hpos)]
      exact_mod_cast hle
    nlinarith [hdiv]

/-- The per-cohort admissions summary row: LEFT JOIN keeps zero-admission
patients, so the patient count is the full cohort size (given globally unique
patient ids), the admission count is the sum of each patient's matching
events, and the per-1000 rate follows the formula. -/
theorem admissionsRowFor_spec (ps : List Patient) (adm : List AdmissionEvent)
    (hnd : (ps.map fun p => p.patient_id).Nodup)
    (g : Cohort) (hg : cohortPatients ps g ≠ []) :
    ∃ row : AdmissionsRow, admissionsRowFor ps adm g = some row ∧
      row.group = g ∧
      row.total_patients = (cohortPatients ps g).length ∧
      row.total_admissions = ((cohortPatients ps g).map fun p =>
        (admissionsFor adm p.patient_id).length).sum ∧
      row.admissions_per_1000 =
        (row.total_admissions : ℚ) / (row.total_patients : ℚ) * 1000 := by
  have hsub : ((cohortPatients ps g).map fun p => p.patient_id).Nodup := by
    refine List.Nodup.sublist ?_ hnd
    exact List.Sublist.map _ (List.filter_sublist ps)
  have hded : ((cohortPatients ps g).map fun p => p.patient_id).dedup =
      (cohortPatients ps g).map fun p => p.patient_id :=
    List.dedup_eq_self.mpr hsub
  have hne : ¬ ((cohortPatients ps g).isEmpty = true) := by
    rw [List.isEmpty_iff]
    exact hg
  unfold admissionsRowFor
  rw [if_neg hne]
  refine ⟨_, rfl, rfl, ?_, rfl, ?_⟩
  · rw [hded, List.length_map]
  · simp only [hded, List.length_map]

/-! Inversion facts about the analysis rows and the pipeline. -/

theorem adherenceRowFor_inv (cfg : Config) (ps : List Patient)
    (ads : List AdherenceRecord) (g : Cohort) (row : AdherenceRow)
    (h : adherenceRowFor cfg ps ads g = some row) :
    row.group = g ∧
    row.adherence_rate = (row.adherent_patients : ℚ) / (row.total_patients : ℚ) * 100 := by
  unfold adherenceRowFor at h
  split_ifs at h
  injection h with h2
  subst h2
  exact ⟨rfl, rfl⟩

theorem admissionsRowFor_inv (ps : List Patient) (adm : List AdmissionEvent)
    (g : Cohort) (row : AdmissionsRow)
    (h : admissionsRowFor ps adm g = some row) :
    row.group = g ∧
    row.admissions_per_1000 =
      (row.total_admissions : ℚ) / (row.total_patients : ℚ) * 1000 := by
  unfold admissionsRowFor at h
  split_ifs at h
  injection h with h2
  subst h2
  refine ⟨rfl, ?_⟩
  simp only [List.length_map]

theorem filterMap_cohort_pair {α : Type} (f : Cohort → Option α) (x : α)
    (h : ([Cohort.g1, Cohort.g2].filterMap f)[1]? = some x) :
    ∃ a b, f Cohort.g1 = some a ∧ f Cohort.g2 = some b ∧
      [Cohort.g1, Cohort.g2].filterMap f = [a, b] := by
  cases hfa : f Cohort.g1 <;> cases hfb : f Cohort.g2 <;>
    simp only [List.filterMap_cons, List.filterMap_nil, hfa, hfb] at h ⊢
  · simp at h
  · simp at h
  · simp at h
  · exact ⟨_, _, rfl, rfl, rfl⟩

theorem run_eval (cfg : Config) (ps : List Patient) (ads : List AdherenceRecord)
    (adm : List AdmissionEvent) (a0 a1 : AdherenceRow) (d0 d1 : AdmissionsRow)
    (h1 : adherenceRowFor cfg ps ads Cohort.g1 = some a0)
    (h2 : adherenceRowFor cfg ps ads Cohort.g2 = some a1)
    (h3 : admissionsRowFor ps adm Cohort.g1 = some d0)
    (h4 : admissionsRowFor ps adm Cohort.g2 = some d1)
    (hz1 : ¬ a1.adherence_rate = 0) (hz2 : ¬ d1.admissions_per_1000 = 0) :
    run_analysis_and_export cfg ps ads adm = Except.ok
      { adherence_analysis := [a0, a1]
        admissions_analysis := [d0, d1]
        summary_findings :=
          { adherence_uplift_pct :=
              pyRound2 ((a0.adherence_rate / a1.adherence_rate - 1) * 100)
            hospitalization_reduction_pct :=
              pyRound2 ((1 - d0.admissions_per_1000 / d1.admissions_per_1000) * 100)
            cost_savings :=
              pyRound2 ((d1.admissions_per_1000 / 1000 * (d0.total_patients : ℚ) -
                (d0.total_admissions : ℚ)) * cfg.cost_per_admission) } } := by
  have e1 : adherenceAnalysis cfg ps ads = [a0, a1] := by
    simp [adherenceAnalysis, List.filterMap_cons, h1, h2]
  have e2 : admissionsAnalysis ps adm = [d0, d1] := by
    simp [admissionsAnalysis, List.filterMap_cons, h3, h4]
  unfold run_analysis_and_export
  rw [e1, e2]
  simp [hz1, hz2]

theorem run_ok_inversion (cfg : Config) (ps : List Patient)
    (ads : List AdherenceRecord) (adm : List AdmissionEvent) (doc : FinalResults)
    (hdoc : run_analysis_and_export cfg ps ads adm = Except.ok doc) :
    ∃ a0 a1 d0 d1,
      adherenceRowFor cfg ps ads Cohort.g1 = some a0 ∧
      adherenceRowFor cfg ps ads Cohort.g2 = some a1 ∧
      admissionsRowFor ps adm Cohort.g1 = some d0 ∧
      admissionsRowFor ps adm Cohort.g2 = some d1 ∧
      ¬ a1.adherence_rate = 0 ∧ ¬ d1.admissions_per_1000 = 0 ∧
      doc = { adherence_analysis := [a0, a1]
              admissions_analysis := [d0, d1]
              summary_findings :=
                { adherence_uplift_pct :=
                    pyRound2 ((a0.adherence_rate / a1.adherence_rate - 1) * 100)
                  hospitalization_reduction_pct :=
                    pyRound2 ((1 - d0.admissions_per_1000 / d1.admissions_per_1000) * 100)
                  cost_savings :=
                    pyRound2 ((d1.admissions_per_1000 / 1000 * (d0.total_patients : ℚ) -
                      (d0.total_admissions : ℚ)) * cfg.cost_per_admission) } } := by
  unfold run_analysis_and_export at hdoc
  split at hdoc
  case _ a0 a1 ha0 ha1 =>
    obtain ⟨a, b, hfa, hfb, hlist⟩ := filterMap_cohort_pair _ a1 ha1
    have ha0e : a0 = a := by
      rw [show adherenceAnalysis cfg ps ads =
        [Cohort.g1, Cohort.g2].filterMap (adherenceRowFor cfg ps ads) from rfl,
        hlist] at ha0
      simpa using ha0.symm
    have ha1e : a1 = b := by
      rw [show adherenceAnalysis cfg ps ads =
        [Cohort.g1, Cohort.g2].filterMap (adherenceRowFor cfg ps ads) from rfl,
        hlist] at ha1
      simpa using ha1.symm
    rw [ha0e, ha1e] at hdoc
    by_cases hz1 : b.adherence_rate = 0
    · rw [if_pos hz1] at hdoc
      exact Except.noConfusion hdoc
    · rw [if_neg hz1] at hdoc
      split at hdoc
      case _ d0 d1 hd0 hd1 =>
        obtain ⟨c, d, hfc, hfd, hlist2⟩ := filterMap_cohort_pair _ d1 hd1
        have hd0e : d0 = c := by
          rw [show admissionsAnalysis ps adm =
            [Cohort.g1, Cohort.g2].filterMap (admissionsRowFor ps adm) from rfl,
            hlist2] at hd0
          simpa using hd0.symm
        have hd1e : d1 = d := by
          rw [show admissionsAnalysis ps adm =
            [Cohort.g1, Cohort.g2].filterMap (admissionsRowFor ps adm) from rfl,
            hlist2] at hd1
          simpa using hd1.symm
        rw [hd0e, hd1e] at hdoc
        by_cases hz2 : d.admissions_per_1000 = 0
        · rw [if_pos hz2] at hdoc
          exact Except.noConfusion hdoc
        · rw [if_neg hz2] at hdoc
          injection hdoc with hd
          refine ⟨a, b, c, d, hfa, hfb, hfc, hfd, hz1, hz2, ?_⟩
          rw [← hd]
          have el1 : adherenceAnalysis cfg ps ads = [a, b] := hlist
          have el2 : admissionsAnalysis ps adm = [c, d] := hlist2
          rw [el1, el2]
      case _ => exact Except.noConfusion hdoc
  case _ => exact Except.noConfusion hdoc

/-- C2: for every set of patient and adherence records in which each patient
has exactly one adherence record (the data-model invariant of spec section 3)
and both cohorts are non-empty, the per-cohort adherence summary row reports
the cohort's total patient count, the count of patients with score at or
above the threshold, and the rate adherent/total*100, which lies in [0, 100]. -/
theorem adherence_summary_per_cohort (cfg : Config) (ps : List Patient)
    (ads : List AdherenceRecord) (score : ℕ → ℚ)
    (h11 : ∀ p ∈ ps, (ads.filter fun a => a.patient_id = p.patient_id) =
      [⟨p.patient_id, score p.patient_id⟩])
    (hA : cohortPatients ps Cohort.g1 ≠ []) (hB : cohortPatients ps Cohort.g2 ≠ [])
    (g : Cohort) :
    ∃ row : AdherenceRow, adherenceRowFor cfg ps ads g = some row ∧
      row.total_patients = (cohortPatients ps g).length ∧
      row.adherent_patients = ((cohortPatients ps g).filter fun p =>
        cfg.adherence_threshold ≤ score p.patient_id).length ∧
      row.adherence_rate =
        (row.adherent_patients : ℚ) / (row.total_patients : ℚ) * 100 ∧
      0 ≤ row.adherence_rate ∧ row.adherence_rate ≤ 100 := by
  have hg : cohortPatients ps g ≠ [] := by
    cases g
    · exact hA
    · exact hB
  obtain ⟨row, h1, -, h3, h4, h5, h6, h7⟩ :=
    adherenceRowFor_spec cfg ps ads score h11 g hg
  exact ⟨row, h1, h3, h4, h5, h6, h7⟩

theorem h11X : ∀ p ∈ psX, (adsX.filter fun a => a.patient_id = p.patient_id) =
    [⟨p.patient_id, scoreX p.patient_id⟩] := by
  intro p hp
  fin_cases hp <;> norm_num [adsX, scoreX, List.filter]

theorem hAX : cohortPatients psX Cohort.g1 ≠ [] := by decide

theorem hBX : cohortPatients psX Cohort.g2 ≠ [] := by decide

theorem hndX : (psX.map fun p => p.patient_id).Nodup := by decide

theorem adherence_summary_per_cohort_witness :
    (∀ p ∈ psX, (adsX.filter fun a => a.patient_id = p.patient_id) =
      [⟨p.patient_id, scoreX p.patient_id⟩]) ∧
    cohortPatients psX Cohort.g1 ≠ [] ∧ cohortPatients psX Cohort.g2 ≠ [] ∧
    (∃ row : AdherenceRow,
      adherenceRowFor defaultConfig psX adsX Cohort.g1 = some row ∧
      row.total_patients = (cohortPatients psX Cohort.g1).length ∧
      row.adherent_patients = ((cohortPatients psX Cohort.g1).filter fun p =>
        defaultConfig.adherence_threshold ≤ scoreX p.patient_id).length ∧
      row.adherence_rate =
        (row.adherent_patients : ℚ) / (row.total_patients : ℚ) * 100 ∧
      0 ≤ row.adherence_rate ∧ row.adherence_rate ≤ 100) :=
  ⟨h11X, hAX, hBX,
    adherence_summary_per_cohort defaultConfig psX adsX scoreX h11X hAX hBX Cohort.g1⟩

/-- C4: for every input with globally unique patient ids, one adherence record
per patient and two non-empty cohorts, the per-cohort admissions summary row
counts every patient of the cohort (zero-admission patients included, by the
LEFT JOIN), reports the cohort's total admission events, and computes
admissions-per-1000 = total_admissions/total_patients*1000; and the per-cohort
patient counts of both summaries sum to the total population. -/
theorem admissions_summary_and_totals (cfg : Config) (ps : List Patient)
    (ads : List AdherenceRecord) (adm : List AdmissionEvent) (score : ℕ → ℚ)
    (h11 : ∀ p ∈ ps, (ads.filter fun a => a.patient_id = p.patient_id) =
      [⟨p.patient_id, score p.patient_id⟩])
    (hnd : (ps.map fun p => p.patient_id).Nodup)
    (hA : cohortPatients ps Cohort.g1 ≠ []) (hB : cohortPatients ps Cohort.g2 ≠ [])
    (g : Cohort) :
    ∃ row : AdmissionsRow, admissionsRowFor ps adm g = some row ∧
      row.total_patients = (cohortPatients ps g).length ∧
      row.total_admissions = ((cohortPatients ps g).map fun p =>
        (admissionsFor adm p.patient_id).length).sum ∧
      row.admissions_per_1000 =
        (row.total_admissions : ℚ) / (row.total_patients : ℚ) * 1000 ∧
      ((adherenceAnalysis cfg ps ads).map fun r => r.total_patients).sum = ps.length ∧
      ((admissionsAnalysis ps adm).map fun r => r.total_patients).sum = ps.length := by
  have hg : cohortPatients ps g ≠ [] := by
    cases g
    · exact hA
    · exact hB
  obtain ⟨row, h1, -, h3, h4, h5⟩ := admissionsRowFor_spec ps adm hnd g hg
  obtain ⟨ra, ha1, -, ha3, -, -, -, -⟩ :=
    adherenceRowFor_spec cfg ps ads score h11 Cohort.g1 hA
  obtain ⟨rb, hb1, -, hb3, -, -, -, -⟩ :=
    adherenceRowFor_spec cfg ps ads score h11 Cohort.g2 hB
  obtain ⟨da, hda1, -, hda3, -, -⟩ := admissionsRowFor_spec ps adm hnd Cohort.g1 hA
  obtain ⟨db, hdb1, -, hdb3, -, -⟩ := admissionsRowFor_spec ps adm hnd Cohort.g2 hB
  have e1 : adherenceAnalysis cfg ps ads = [ra, rb] := by
    simp [adherenceAnalysis, List.filterMap_cons, ha1, hb1]
  have e2 : admissionsAnalysis ps adm = [da, db] := by
    simp [admissionsAnalysis, List.filterMap_cons, hda1, hdb1]
  refine ⟨row, h1, h3, h4, h5, ?_, ?_⟩
  · rw [e1]
    simp only [List.map_cons, List.map_nil, List.sum_cons, List.sum_nil, Nat.add_zero]
    rw [ha3, hb3]
    exact cohort_partition ps
  · rw [e2]
    simp only [List.map_cons, List.map_nil, List.sum_cons, List.sum_nil, Nat.add_zero]
    rw [hda3, hdb3]
    exact cohort_partition ps

theorem admissions_summary_and_totals_witness :
    (∀ p ∈ psX, (adsX.filter fun a => a.patient_id = p.patient_id) =
      [⟨p.patient_id, scoreX p.patient_id⟩]) ∧
    (psX.map fun p => p.patient_id).Nodup ∧
    cohortPatients psX Cohort.g1 ≠ [] ∧ cohortPatients psX Cohort.g2 ≠ [] ∧
    (∃ row : AdmissionsRow, admissionsRowFor psX admX Cohort.g1 = some row ∧
      row.total_patients = (cohortPatients psX Cohort.g1).length ∧
      row.total_admissions = ((cohortPatients psX Cohort.g1).map fun p =>
        (admissionsFor admX p.patient_id).length).sum ∧
      row.admissions_per_1000 =
        (row.total_admissions : ℚ) / (row.total_patients : ℚ) * 1000 ∧
      ((adherenceAnalysis defaultConfig psX adsX).map fun r => r.total_patients).sum =
        psX.length ∧
      ((admissionsAnalysis psX admX).map fun r => r.total_patients).sum = psX.length) :=
  ⟨h11X, hndX, hAX, hBX,
    admissions_summary_and_totals defaultConfig psX adsX admX scoreX h11X hndX hAX hBX
      Cohort.g1⟩

/-- C8: on degenerate input — an empty cohort, or a zero denominator in the
uplift ratio (no adherent patient in the second cohort) — the pipeline stops
with a propagated error (the missing cohort row raises IndexError at the
`adherence_data[0]`/`[1]` accesses, a zero rate raises ZeroDivisionError at
the division), no NaN or garbage value is produced, and no result document is
returned, modelling that the output file of line 125 is only written after
every metric has been computed. -/
theorem fail_fast_on_degenerate_input (cfg : Config) (ps : List Patient)
    (ads : List AdherenceRecord) (adm : List AdmissionEvent)
    (h : cohortPatients ps Cohort.g1 = [] ∨ cohortPatients ps Cohort.g2 = [] ∨
      ((adherRowsFor ps ads Cohort.g2).filter fun r =>
        cfg.adherence_threshold ≤ r.2.pdc_score) = []) :
    ∃ msg, run_analysis_and_export cfg ps ads adm = Except.error msg := by
  by_cases hlen : (adherenceAnalysis cfg ps ads).length ≤ 1
  · have h1n : (adherenceAnalysis cfg ps ads)[1]? = none :=
      List.getElem?_eq_none (by omega)
    refine ⟨"IndexError", ?_⟩
    unfold run_analysis_and_export
    cases h0 : (adherenceAnalysis cfg ps ads)[0]? with
    | none => rw [h1n]
    | some a0 => rw [h1n]
  · have hg2ne : adherenceRowFor cfg ps ads Cohort.g2 ≠ none := by
      intro hcontra
      apply hlen
      simp only [adherenceAnalysis, List.filterMap_cons, List.filterMap_nil, hcontra]
      cases adherenceRowFor cfg ps ads Cohort.g1 <;> simp
    have hrows2ne : ¬ ((adherRowsFor ps ads Cohort.g2).isEmpty = true) := by
      intro hcontra
      apply hg2ne
      unfold adherenceRowFor
      rw [if_pos hcontra]
    have hg2 : cohortPatients ps Cohort.g2 ≠ [] := by
      intro hcontra
      apply hrows2ne
      rw [List.isEmpty_iff, adherRowsFor_eq, hcontra]
      rfl
    have hg1 : cohortPatients ps Cohort.g1 ≠ [] := by
      intro hcontra
      apply hlen
      have hnone : adherenceRowFor cfg ps ads Cohort.g1 = none := by
        unfold adherenceRowFor
        rw [if_pos]
        rw [List.isEmpty_iff, adherRowsFor_eq, hcontra]
        rfl
      simp only [adherenceAnalysis, List.filterMap_cons, List.filterMap_nil, hnone]
      cases adherenceRowFor cfg ps ads Cohort.g2 <;> simp
    have hfilter : ((adherRowsFor ps ads Cohort.g2).filter fun r =>
        cfg.adherence_threshold ≤ r.2.pdc_score) = [] := by
      rcases h with hc | hc | hc
      · exact absurd hc hg1
      · exact absurd hc hg2
      · exact hc
    have hrow2 : adherenceRowFor cfg ps ads Cohort.g2 = some
        { group := Cohort.g2
          total_patients := (adherRowsFor ps ads Cohort.g2).length
          adherent_patients := 0
          adherence_rate := 0 } := by
      unfold adherenceRowFor
      rw [if_neg hrows2ne]
      simp only [hfilter, List.length_nil]
      norm_num
    cases ha1 : adherenceRowFor cfg ps ads Cohort.g1 with
    | none =>
      have hlen2 : (adherenceAnalysis cfg ps ads).length ≤ 1 := by
        simp [adherenceAnalysis, List.filterMap_cons, ha1, hrow2]
      exact absurd hlen2 hlen
    | some a0 =>
      have e1 : adherenceAnalysis cfg ps ads = [a0,
          { group := Cohort.g2
            total_patients := (adherRowsFor ps ads Cohort.g2).length
            adherent_patients := 0
            adherence_rate := 0 }] := by
        simp [adherenceAnalysis, List.filterMap_cons, ha1, hrow2]
      refine ⟨"ZeroDivisionError", ?_⟩
      unfold run_analysis_and_export
      rw [e1]
      simp

/-- C9: the exported document is a pure function of the three record sets —
two runs on equal inputs return the identical document — and when a document
is produced its per-cohort record lists are ordered by cohort label, the
first-cohort row before the second-cohort row in both sections. -/
theorem output_pure_function_and_ordered (cfg : Config)
    (ps ps2 : List Patient) (ads ads2 : List AdherenceRecord)
    (adm adm2 : List AdmissionEvent)
    (h1 : ps = ps2) (h2 : ads = ads2) (h3 : adm = adm2) (doc : FinalResults)
    (hdoc : run_analysis_and_export cfg ps ads adm = Except.ok doc) :
    run_analysis_and_export cfg ps2 ads2 adm2 = Except.ok doc ∧
    (doc.adherence_analysis.map fun r => r.group) = [Cohort.g1, Cohort.g2] ∧
    (doc.admissions_analysis.map fun r => r.group) = [Cohort.g1, Cohort.g2] := by
  subst h1
  subst h2
  subst h3
  obtain ⟨a0, a1, d0, d1, hfa, hfb, hfc, hfd, -, -, hdoceq⟩ :=
    run_ok_inversion cfg ps ads adm doc hdoc
  subst hdoceq
  refine ⟨hdoc, ?_, ?_⟩
  · simp only [List.map_cons, List.map_nil]
    rw [(adherenceRowFor_inv cfg ps ads Cohort.g1 a0 hfa).1,
      (adherenceRowFor_inv cfg ps ads Cohort.g2 a1 hfb).1]
  · simp only [List.map_cons, List.map_nil]
    rw [(admissionsRowFor_inv ps adm Cohort.g1 d0 hfc).1,
      (admissionsRowFor_inv ps adm Cohort.g2 d1 hfd).1]

theorem fail_fast_on_degenerate_input_witness :
    (cohortPatients psY Cohort.g1 = [] ∨ cohortPatients psY Cohort.g2 = [] ∨
      ((adherRowsFor psY [] Cohort.g2).filter fun r =>
        defaultConfig.adherence_threshold ≤ r.2.pdc_score) = []) ∧
    ∃ msg, run_analysis_and_export defaultConfig psY [] [] = Except.error msg :=
  ⟨Or.inr (Or.inl (by decide)),
   fail_fast_on_degenerate_input defaultConfig psY [] [] (Or.inr (Or.inl (by decide)))⟩

theorem decide_cohort_g1_g1 : decide (Cohort.g1 = Cohort.g1) = true := rfl

theorem decide_cohort_g2_g2 : decide (Cohort.g2 = Cohort.g2) = true := rfl

theorem decide_cohort_g1_g2 : decide (Cohort.g1 = Cohort.g2) = false := rfl

theorem decide_cohort_g2_g1 : decide (Cohort.g2 = Cohort.g1) = false := rfl

theorem rowXa_eval : adherenceRowFor defaultConfig psX adsX Cohort.g1 =
    some ⟨Cohort.g1, 3, 1, 100 / 3⟩ := by
  norm_num [adherenceRowFor, adherRowsFor, joinAdherence, psX, adsX, defaultConfig,
    List.flatMap_cons, List.filter, decide_cohort_g1_g1, decide_cohort_g2_g2,
    decide_cohort_g1_g2, decide_cohort_g2_g1]

theorem rowXb_eval : adherenceRowFor defaultConfig psX adsX Cohort.g2 =
    some ⟨Cohort.g2, 3, 3, 100⟩ := by
  norm_num [adherenceRowFor, adherRowsFor, joinAdherence, psX, adsX, defaultConfig,
    List.flatMap_cons, List.filter, decide_cohort_g1_g1, decide_cohort_g2_g2,
    decide_cohort_g1_g2, decide_cohort_g2_g1]

theorem rowXc_eval : admissionsRowFor psX admX Cohort.g1 =
    some ⟨Cohort.g1, 3, 0, 0⟩ := by
  norm_num [admissionsRowFor, cohortPatients, admissionsFor, psX, admX,
    List.filter, List.dedup_cons_of_not_mem, List.dedup_nil, decide_cohort_g1_g1,
    decide_cohort_g2_g2, decide_cohort_g1_g2, decide_cohort_g2_g1]

theorem rowXd_eval : admissionsRowFor psX admX Cohort.g2 =
    some ⟨Cohort.g2, 3, 1, 1000 / 3⟩ := by
  norm_num [admissionsRowFor, cohortPatients, admissionsFor, psX, admX,
    List.filter, List.dedup_cons_of_not_mem, List.dedup_nil, decide_cohort_g1_g1,
    decide_cohort_g2_g2, decide_cohort_g1_g2, decide_cohort_g2_g1]

theorem run_psX : run_analysis_and_export defaultConfig psX adsX admX =
    Except.ok docX := by
  have h := run_eval defaultConfig psX adsX admX _ _ _ _ rowXa_eval rowXb_eval
    rowXc_eval rowXd_eval (by norm_num) (by norm_num)
  rw [h]
  norm_num [docX, pyRound2, roundHalfToEven, defaultConfig]

theorem output_pure_function_and_ordered_witness :
    run_analysis_and_export defaultConfig psX adsX admX = Except.ok docX ∧
    (docX.adherence_analysis.map fun r => r.group) = [Cohort.g1, Cohort.g2] ∧
    (docX.admissions_analysis.map fun r => r.group) = [Cohort.g1, Cohort.g2] :=
  output_pure_function_and_ordered defaultConfig psX psX adsX adsX admX admX
    rfl rfl rfl docX run_psX

/-- C1 counterexample: on the concrete input `psX`/`adsX`/`admX` the exported
adherence_uplift_pct is the 2-decimal rounding -66.67, which differs from the
raw spec formula (rate_A / rate_B - 1) * 100 = (100/3 / 100 - 1) * 100 =
-200/3 = -66.666...; so the exported scalar does not equal the formula value
itself. -/
theorem summary_formulas_counterexample :
    run_analysis_and_export defaultConfig psX adsX admX = Except.ok docX ∧
    docX.adherence_analysis =
      [⟨Cohort.g1, 3, 1, 100 / 3⟩, ⟨Cohort.g2, 3, 3, 100⟩] ∧
    docX.summary_findings.adherence_uplift_pct ≠
      ((100 / 3 : ℚ) / 100 - 1) * 100 :=
  ⟨run_psX, rfl, by norm_num [docX]⟩

/-- C1 (amended): for every input with one adherence record per patient, two
non-empty cohorts and non-zero second-cohort denominators, the three scalar
fields of the exported summary_findings equal the spec formulas applied to the
per-cohort summaries, rounded to 2 decimal places (the `round(x, 2)` applied
at lines 118-120): adherence_uplift_pct = round2((rate_A/rate_B - 1)*100),
hospitalization_reduction_pct = round2((1 - per1000_A/per1000_B)*100), and
cost_savings = round2((per1000_B/1000*patient_count_A - admissions_A)*cost). -/
theorem summary_findings_formulas (cfg : Config) (ps : List Patient)
    (ads : List AdherenceRecord) (adm : List AdmissionEvent) (score : ℕ → ℚ)
    (h11 : ∀ p ∈ ps, (ads.filter fun a => a.patient_id = p.patient_id) =
      [⟨p.patient_id, score p.patient_id⟩])
    (hnd : (ps.map fun p => p.patient_id).Nodup)
    (hA : cohortPatients ps Cohort.g1 ≠ []) (hB : cohortPatients ps Cohort.g2 ≠ [])
    (hBadh : ((cohortPatients ps Cohort.g2).filter fun p =>
      cfg.adherence_threshold ≤ score p.patient_id) ≠ [])
    (hBadm : ((cohortPatients ps Cohort.g2).map fun p =>
      (admissionsFor adm p.patient_id).length).sum ≠ 0) :
    ∃ doc a0 a1 d0 d1,
      run_analysis_and_export cfg ps ads adm = Except.ok doc ∧
      doc.adherence_analysis = [a0, a1] ∧ doc.admissions_analysis = [d0, d1] ∧
      a0.group = Cohort.g1 ∧ a1.group = Cohort.g2 ∧
      d0.group = Cohort.g1 ∧ d1.group = Cohort.g2 ∧
      doc.summary_findings.adherence_uplift_pct =
        pyRound2 ((a0.adherence_rate / a1.adherence_rate - 1) * 100) ∧
      doc.summary_findings.hospitalization_reduction_pct =
        pyRound2 ((1 - d0.admissions_per_1000 / d1.admissions_per_1000) * 100) ∧
      doc.summary_findings.cost_savings =
        pyRound2 ((d1.admissions_per_1000 / 1000 * (d0.total_patients : ℚ) -
          (d0.total_admissions : ℚ)) * cfg.cost_per_admission) := by
  obtain ⟨ra, ha1, hag, -, -, -, -, -⟩ :=
    adherenceRowFor_spec cfg ps ads score h11 Cohort.g1 hA
  obtain ⟨rb, hb1, hbg, hbt, hba, hbr, -, -⟩ :=
    adherenceRowFor_spec cfg ps ads score h11 Cohort.g2 hB
  obtain ⟨da, hda1, hdag, -, -, -⟩ := admissionsRowFor_spec ps adm hnd Cohort.g1 hA
  obtain ⟨db, hdb1, hdbg, hdbt, hdba, hdbr⟩ :=
    admissionsRowFor_spec ps adm hnd Cohort.g2 hB
  have hbtotpos : 0 < (cohortPatients ps Cohort.g2).length :=
    List.length_pos.mpr hB
  have hz1 : ¬ rb.adherence_rate = 0 := by
    have hadhpos : 0 < ((cohortPatients ps Cohort.g2).filter fun p =>
        cfg.adherence_threshold ≤ score p.patient_id).length :=
      List.length_pos.mpr hBadh
    rw [hbr, hba, hbt]
    have hq1 : (0 : ℚ) < (((cohortPatients ps Cohort.g2).filter fun p =>
        cfg.adherence_threshold ≤ score p.patient_id).length : ℚ) := by
      exact_mod_cast hadhpos
    have hq2 : (0 : ℚ) < ((cohortPatients ps Cohort.g2).length : ℚ) := by
      exact_mod_cast hbtotpos
    positivity
  have hz2 : ¬ db.admissions_per_1000 = 0 := by
    have hsumpos : 0 < ((cohortPatients ps Cohort.g2).map fun p =>
        (admissionsFor adm p.patient_id).length).sum := Nat.pos_of_ne_zero hBadm
    rw [hdbr, hdba, hdbt]
    have hq1 : (0 : ℚ) < (((cohortPatients ps Cohort.g2).map fun p =>
        (admissionsFor adm p.patient_id).length).sum : ℚ) := by
      exact_mod_cast hsumpos
    have hq2 : (0 : ℚ) < ((cohortPatients ps Cohort.g2).length : ℚ) := by
      exact_mod_cast hbtotpos
    positivity
  refine ⟨_, ra, rb, da, db,
    run_eval cfg ps ads adm ra rb da db ha1 hb1 hda1 hdb1 hz1 hz2,
    rfl, rfl, hag, hbg, hdag, hdbg, rfl, rfl, rfl⟩

theorem summary_findings_formulas_witness :
    (∀ p ∈ psX, (adsX.filter fun a => a.patient_id = p.patient_id) =
      [⟨p.patient_id, scoreX p.patient_id⟩]) ∧
    (psX.map fun p => p.patient_id).Nodup ∧
    cohortPatients psX Cohort.g1 ≠ [] ∧ cohortPatients psX Cohort.g2 ≠ [] ∧
    ((cohortPatients psX Cohort.g2).filter fun p =>
      defaultConfig.adherence_threshold ≤ scoreX p.patient_id) ≠ [] ∧
    ((cohortPatients psX Cohort.g2).map fun p =>
      (admissionsFor admX p.patient_id).length).sum ≠ 0 ∧
    (∃ doc a0 a1 d0 d1,
      run_analysis_and_export defaultConfig psX adsX admX = Except.ok doc ∧
      doc.adherence_analysis = [a0, a1] ∧ doc.admissions_analysis = [d0, d1] ∧
      a0.group = Cohort.g1 ∧ a1.group = Cohort.g2 ∧
      d0.group = Cohort.g1 ∧ d1.group = Cohort.g2 ∧
      doc.summary_findings.adherence_uplift_pct =
        pyRound2 ((a0.adherence_rate / a1.adherence_rate - 1) * 100) ∧
      doc.summary_findings.hospitalization_reduction_pct =
        pyRound2 ((1 - d0.admissions_per_1000 / d1.admissions_per_1000) * 100) ∧
      doc.summary_findings.cost_savings =
        pyRound2 ((d1.admissions_per_1000 / 1000 * (d0.total_patients : ℚ) -
          (d0.total_admissions : ℚ)) * defaultConfig.cost_per_admission)) := by
  have hBadh : ((cohortPatients psX Cohort.g2).filter fun p =>
      defaultConfig.adherence_threshold ≤ scoreX p.patient_id) ≠ [] := by
    norm_num [cohortPatients, psX, scoreX, defaultConfig, List.filter,
      decide_cohort_g1_g2, decide_cohort_g2_g2]
    exact List.cons_ne_nil _ _
  have hBadm : ((cohortPatients psX Cohort.g2).map fun p =>
      (admissionsFor admX p.patient_id).length).sum ≠ 0 := by decide
  exact ⟨h11X, hndX, hAX, hBX, hBadh, hBadm,
    summary_findings_formulas defaultConfig psX adsX admX scoreX h11X hndX hAX hBX
      hBadh hBadm⟩

/-- C7 counterexample: on the concrete input `psX`/`adsX`/`admX` the exported
per-cohort adherence_rate 100/3 = 33.333... is not a 2-decimal value (its
2-decimal rounding 33.33 differs), so not every percentage field of the
exported document is rounded to 2 decimal places. -/
theorem rounding_policy_counterexample :
    run_analysis_and_export defaultConfig psX adsX admX = Except.ok docX ∧
    (docX.adherence_analysis.map fun r => r.adherence_rate) = [100 / 3, 100] ∧
    pyRound2 (100 / 3) ≠ (100 / 3 : ℚ) :=
  ⟨run_psX, rfl, by norm_num [pyRound2, roundHalfToEven]⟩

/-- C7 (amended): the three summary_findings scalars of every exported
document are rounded to 2 decimal places (each is a fixed point of round2),
while the per-cohort adherence_rate and admissions_per_1000 fields are
exported at full precision — they equal the exact unrounded ratios
adherent/total*100 and admissions/patients*1000 — as do the intermediate
ratios feeding the summary metrics. -/
theorem rounding_policy (cfg : Config) (ps : List Patient)
    (ads : List AdherenceRecord) (adm : List AdmissionEvent) (doc : FinalResults)
    (hdoc : run_analysis_and_export cfg ps ads adm = Except.ok doc) :
    pyRound2 doc.summary_findings.adherence_uplift_pct =
      doc.summary_findings.adherence_uplift_pct ∧
    pyRound2 doc.summary_findings.hospitalization_reduction_pct =
      doc.summary_findings.hospitalization_reduction_pct ∧
    pyRound2 doc.summary_findings.cost_savings =
      doc.summary_findings.cost_savings ∧
    (∀ r ∈ doc.adherence_analysis,
      r.adherence_rate = (r.adherent_patients : ℚ) / (r.total_patients : ℚ) * 100) ∧
    (∀ r ∈ doc.admissions_analysis,
      r.admissions_per_1000 =
        (r.total_admissions : ℚ) / (r.total_patients : ℚ) * 1000) := by
  obtain ⟨a0, a1, d0, d1, hfa, hfb, hfc, hfd, -, -, hdoceq⟩ :=
    run_ok_inversion cfg ps ads adm doc hdoc
  subst hdoceq
  refine ⟨pyRound2_idem _, pyRound2_idem _, pyRound2_idem _, ?_, ?_⟩
  · intro r hr
    rcases List.mem_pair.mp hr with rfl | rfl
    · exact (adherenceRowFor_inv cfg ps ads Cohort.g1 r hfa).2
    · exact (adherenceRowFor_inv cfg ps ads Cohort.g2 r hfb).2
  · intro r hr
    rcases List.mem_pair.mp hr with rfl | rfl
    · exact (admissionsRowFor_inv ps adm Cohort.g1 r hfc).2
    · exact (admissionsRowFor_inv ps adm Cohort.g2 r hfd).2

theorem rounding_policy_witness :
    run_analysis_and_export defaultConfig psX adsX admX = Except.ok docX ∧
    (pyRound2 docX.summary_findings.adherence_uplift_pct =
      docX.summary_findings.adherence_uplift_pct ∧
     pyRound2 docX.summary_findings.hospitalization_reduction_pct =
      docX.summary_findings.hospitalization_reduction_pct ∧
     pyRound2 docX.summary_findings.cost_savings =
      docX.summary_findings.cost_savings ∧
     (∀ r ∈ docX.adherence_analysis,
       r.adherence_rate = (r.adherent_patients : ℚ) / (r.total_patients : ℚ) * 100) ∧
     (∀ r ∈ docX.admissions_analysis,
       r.admissions_per_1000 =
         (r.total_admissions : ℚ) / (r.total_patients : ℚ) * 1000)) :=
  ⟨run_psX, rounding_policy defaultConfig psX adsX admX docX run_psX⟩
